import Mathlib

/-!
Shallow embedding of the Reddit data-extraction pipeline (`main.py`):
post selection by date window and score, comment-forest flattening,
role classification, parent-context resolution, and table formatting.
Machine timestamps are modelled as natural numbers of seconds since the
Unix epoch; pandas cells that may be NaN/None are modelled as `Option`.
-/

/-- Zero-pad a natural number to at least two digits (strftime `%d` / `%m`). -/
def pad2 (n : Nat) : String := if n < 10 then "0" ++ toString n else toString n

/-- Zero-pad a natural number to at least four digits (strftime `%Y`). -/
def pad4 (n : Nat) : String :=
  if n < 10 then "000" ++ toString n
  else if n < 100 then "00" ++ toString n
  else if n < 1000 then "0" ++ toString n
  else toString n

/-- Civil date `(year, month, day)` from days since the Unix epoch
(valid for dates on or after 1970-01-01). -/
def civilFromDays (z0 : Nat) : Nat × Nat × Nat :=
  let z := z0 + 719468
  let era := z / 146097
  let doe := z % 146097
  let yoe := (doe - doe / 1460 + doe / 36524 - doe / 146096) / 365
  let y := yoe + era * 400
  let doy := doe - (365 * yoe + yoe / 4 - yoe / 100)
  let mp := (5 * doy + 2) / 153
  let d := doy - (153 * mp + 2) / 5 + 1
  let m := if mp < 10 then mp + 3 else mp - 9
  (if m ≤ 2 then y + 1 else y, m, d)

/-- Days since the Unix epoch of a civil date
(valid for dates on or after 1970-01-01). -/
def daysFromCivil (y m d : Nat) : Nat :=
  let y' := if m ≤ 2 then y - 1 else y
  let era := y' / 400
  let yoe := y' % 400
  let doy := (153 * ((m + 9) % 12) + 2) / 5 + d - 1
  let doe := yoe * 365 + yoe / 4 - yoe / 100 + doy
  era * 146097 + doe - 719468

/-- Formatting of one timestamp cell,
`pd.to_datetime(t, unit="s").dt.strftime("%d-%m-%Y")`. -/
def formatDate (t : Nat) : String :=
  let c := civilFromDays (t / 86400)
  pad2 c.2.2 ++ "-" ++ pad2 c.2.1 ++ "-" ++ pad4 c.1

/-- One row of `posts_df` as built in `fetch_data`. -/
structure PostRec where
  post_id : String
  self_text : Option String
  created_utc : Nat
  score : Int
deriving DecidableEq

/-- One row of `comments_df` as built by `fetch_comments`: `parent_id` is
`None` for a root comment of the forest, else the parent's comment id. -/
structure FlatComment where
  comment_id : String
  post_id : String
  parent_id : Option String
  body : Option String
  created_utc : Nat
deriving DecidableEq

/-- A node of the platform-supplied comment forest (praw comment with
its ordered replies). -/
inductive RawCommentNode : Type where
  | mk (comment_id : String) (body : Option String) (created_utc : Nat)
      (replies : List RawCommentNode)

def RawCommentNode.comment_id : RawCommentNode → String
  | .mk i _ _ _ => i

def RawCommentNode.body : RawCommentNode → Option String
  | .mk _ b _ _ => b

def RawCommentNode.created_utc : RawCommentNode → Nat
  | .mk _ _ t _ => t

def RawCommentNode.replies : RawCommentNode → List RawCommentNode
  | .mk _ _ _ rs => rs

mutual

/-- The inner `walk(comment, parent_id)` of `fetch_comments`: append this
node's flat record, then walk each reply with this node's id as parent. -/
def walk (postId : String) (c : RawCommentNode) (parentId : Option String) :
    List FlatComment :=
  match c with
  | .mk i b t rs => ⟨i, postId, parentId, b, t⟩ :: walkF postId rs (some i)

/-- Walking a list of sibling nodes in order, all with the same parent. -/
def walkF (postId : String) (cs : List RawCommentNode) (parentId : Option String) :
    List FlatComment :=
  match cs with
  | [] => []
  | c :: rest => walk postId c parentId ++ walkF postId rest parentId

end

/-- Flattening in `fetch_comments(submission)`: the roots are walked with
`parent_id=None`. -/
def fetch_comments (postId : String) (forest : List RawCommentNode) :
    List FlatComment :=
  walkF postId forest none

mutual

/-- Number of nodes of a comment tree. -/
def treeSize : RawCommentNode → Nat
  | .mk _ _ _ rs => 1 + forestSize rs

/-- Number of nodes of a comment forest. -/
def forestSize : List RawCommentNode → Nat
  | [] => 0
  | t :: ts => treeSize t + forestSize ts

end

mutual

/-- The ids of a comment tree, in pre-order. -/
def treeIds : RawCommentNode → List String
  | .mk i _ _ rs => i :: forestIds rs

/-- The ids of a comment forest, in pre-order. -/
def forestIds : List RawCommentNode → List String
  | [] => []
  | t :: ts => treeIds t ++ forestIds ts

end

/-- Stringification of the `parent_id` column by
`comments_df["parent_id"].astype(str)`: Python renders `None` as `"None"`. -/
def pidStr (c : FlatComment) : String :=
  match c.parent_id with
  | none => "None"
  | some s => s

/-- The row classifier defined inside `clean_data`. -/
def classify (post_ids comment_ids : List String) (c : FlatComment) : String :=
  if post_ids.contains (pidStr c) then "COMMENT"
  else if comment_ids.contains (pidStr c) then "REPLY"
  else "COMMENT"

/-- A row of `comments_df` after the `TYPE` column and the first merge
(post context `self_text`) have been attached. -/
structure Row1 where
  c : FlatComment
  ttype : String
  self_text : Option String
deriving DecidableEq

/-- A row after the second merge: `body_parent` is the body of the row
whose `comment_id` matched this row's `parent_id`, if any. -/
structure Row2 where
  r : Row1
  body_parent : Option String
deriving DecidableEq

/-- First merge, `comments_df.merge(posts_df[["post_id","self_text"]],
on="post_id", how="left")`: each comment row is paired with the `self_text` of every
post row with the same `post_id`, or with a NaN cell if there is none. -/
def merge1 (posts : List PostRec) (cs : List (FlatComment × String)) : List Row1 :=
  cs.flatMap fun p =>
    match posts.filter (fun q => q.post_id == p.1.post_id) with
    | [] => [⟨p.1, p.2, none⟩]
    | qs => qs.map fun q => ⟨p.1, p.2, q.self_text⟩

/-- Second merge, `comments_df.merge(comments_df[["comment_id","body"]],
left_on="parent_id", right_on="comment_id", how="left",
suffixes=("", "_parent"))`: a self-join of the merged comment table. -/
def merge2 (rows : List Row1) : List Row2 :=
  rows.flatMap fun r =>
    match rows.filter (fun q => q.c.comment_id == pidStr r.c) with
    | [] => [⟨r, none⟩]
    | qs => qs.map fun q => ⟨r, q.c.body⟩

/-- The `context(row)` helper of `clean_data`. -/
def context (r : Row2) : Option String :=
  if r.r.ttype == "COMMENT" then r.r.self_text else r.body_parent

/-- One row of the output table; `description` and `parent_description`
cells may be NaN (`none`). -/
structure OutRow where
  platform : String
  entity : String
  date : String
  ttype : String
  id : String
  description : Option String
  parent_description : Option String
deriving DecidableEq

/-- One row of `posts_fmt`: both text cells pass through `.fillna("")`. -/
def postFmt (entity : String) (p : PostRec) : OutRow :=
  ⟨"Reddit", entity, formatDate p.created_utc, "POST", p.post_id,
    some (p.self_text.getD ""), some (p.self_text.getD "")⟩

/-- One row of `comments_fmt`: `DESCRIPTION` is the raw `body` cell and
`PARENT_DESCRIPTION` is `context(row)`; neither passes through `fillna`. -/
def commentFmt (entity : String) (r : Row2) : OutRow :=
  ⟨"Reddit", entity, formatDate r.r.c.created_utc, r.r.ttype, r.r.c.comment_id,
    r.r.c.body, context r⟩

/-- The comment table of `clean_data` just before formatting: classify
every comment, then run the two left merges. -/
def rows2Of (posts : List PostRec) (comments : List FlatComment) : List Row2 :=
  merge2 (merge1 posts (comments.map fun c =>
    (c, classify (posts.map PostRec.post_id) (comments.map FlatComment.comment_id) c)))

/-- Cleaning stage `clean_data(posts_df, comments_df)`: raises when `posts_df` is empty,
otherwise emits the formatted posts followed by the formatted comments. -/
def clean_data (entity : String) (posts : List PostRec)
    (comments : List FlatComment) : Except String (List OutRow) :=
  if posts.isEmpty then Except.error "No posts available to clean."
  else
    let posts_fmt := posts.map (postFmt entity)
    if comments.isEmpty then Except.ok posts_fmt
    else Except.ok (posts_fmt ++ (rows2Of posts comments).map (commentFmt entity))

/-- The `reddit` section of `config.json`, with the two dates already split
into year/month/day as `datetime.strptime(s, "%Y-%m-%d")` does. -/
structure Config where
  subreddit_name : String
  start_y : Nat
  start_m : Nat
  start_d : Nat
  end_y : Nat
  end_m : Nat
  end_d : Nat
  top_post_number : Nat
deriving DecidableEq

/-- Epoch seconds of midnight UTC on the configured start date
(`datetime.strptime(start_date, "%Y-%m-%d").replace(tzinfo=utc)`). -/
def startEpoch (cfg : Config) : Nat :=
  86400 * daysFromCivil cfg.start_y cfg.start_m cfg.start_d

/-- Epoch seconds of midnight UTC on the configured end date. -/
def endEpoch (cfg : Config) : Nat :=
  86400 * daysFromCivil cfg.end_y cfg.end_m cfg.end_d

/-- The filter of `fetch_data`: `start <= created <= end` on exact
instants, where both bounds are midnights. -/
def inWindow (cfg : Config) (t : Nat) : Bool :=
  startEpoch cfg ≤ t && t ≤ endEpoch cfg

/-- Modelled from the spec: membership of a timestamp in the closed
day-granularity interval `[start_date, end_date]`, both whole days
inclusive, as §4.1 words the Post Selector contract. -/
def inWindowDaySpec (cfg : Config) (t : Nat) : Bool :=
  startEpoch cfg ≤ t && t < endEpoch cfg + 86400

/-- A submission as the praw client hands it over: post fields plus its
fully materialized comment forest. -/
structure Submission where
  id : String
  selftext : Option String
  created_utc : Nat
  score : Int
  forest : List RawCommentNode

/-- The comparator realizing Python's stable
`sorted(posts, key=lambda x: x["score"], reverse=True)`. -/
def scoreGe (a b : PostRec) : Bool :=
  b.score ≤ a.score

/-- Fetch stage `fetch_data(reddit)`: keep submissions inside the window, bail out
with two empty frames when none is left, else take the top-N by score
(stable descending sort) and flatten each selected post's forest. -/
def fetch_data (cfg : Config) (subs : List Submission) :
    List PostRec × List FlatComment :=
  let posts := (subs.filter fun s => inWindow cfg s.created_utc).map fun s =>
    (⟨s.id, s.selftext, s.created_utc, s.score⟩ : PostRec)
  if posts.isEmpty then ([], [])
  else
    let sel := (posts.mergeSort scoreGe).take cfg.top_post_number
    (sel, sel.flatMap fun p =>
      match subs.find? (fun s => s.id == p.post_id) with
      | some s => fetch_comments p.post_id s.forest
      | none => [])

/-- Output file name `{subreddit}_cleaned_{start}_{end}.xlsx` with the
dashes stripped from both dates. -/
def outputFileName (cfg : Config) : String :=
  cfg.subreddit_name ++ "_cleaned_" ++
    pad4 cfg.start_y ++ pad2 cfg.start_m ++ pad2 cfg.start_d ++ "_" ++
    pad4 cfg.end_y ++ pad2 cfg.end_m ++ pad2 cfg.end_d ++ ".xlsx"

/-- Top level `main()` after credentials: fetch, raise on an empty post frame
before any file is written, else clean and save the table under the
derived file name. -/
def main_run (cfg : Config) (subs : List Submission) :
    Except String (String × List OutRow) :=
  let fetched := fetch_data cfg subs
  if fetched.1.isEmpty then
    Except.error
      "No posts found for the given subreddit and date range. Try widening the date range."
  else
    match clean_data cfg.subreddit_name fetched.1 fetched.2 with
    | Except.error e => Except.error e
    | Except.ok table => Except.ok (outputFileName cfg, table)

/-! ## Occurrence of nodes in a comment forest -/

/-- Occurrence of a node somewhere in a comment tree (reflexive). -/
inductive InTree : RawCommentNode → RawCommentNode → Prop where
  | refl (t : RawCommentNode) : InTree t t
  | child {a c t : RawCommentNode} :
      c ∈ t.replies → InTree a c → InTree a t

/-- Occurrence of a node somewhere in a comment forest. -/
def InForest (a : RawCommentNode) (f : List RawCommentNode) : Prop :=
  ∃ t ∈ f, InTree a t

/-- Strict descendance: `b` lies in the subtree of one of `a`'s replies. -/
def Desc (a b : RawCommentNode) : Prop :=
  ∃ c ∈ a.replies, InTree b c

/-- Sibling nodes `x` before `y`: both roots of the forest in that order,
or children, in that order, of one node occurring in the forest. -/
def SiblingPair (x y : RawCommentNode) (f : List RawCommentNode) : Prop :=
  (∃ u v w, f = u ++ x :: v ++ y :: w) ∨
  (∃ p, InForest p f ∧ ∃ u v w, p.replies = u ++ x :: v ++ y :: w)

/-! ## Structure of the flattened output -/

theorem walk_eq (pid : String) (t : RawCommentNode) (par : Option String) :
    walk pid t par =
      ⟨t.comment_id, pid, par, t.body, t.created_utc⟩ ::
        walkF pid t.replies (some t.comment_id) := by
  cases t
  rfl

theorem walkF_nil (pid : String) (par : Option String) :
    walkF pid [] par = [] := rfl

theorem walkF_cons (pid : String) (c : RawCommentNode)
    (cs : List RawCommentNode) (par : Option String) :
    walkF pid (c :: cs) par = walk pid c par ++ walkF pid cs par := rfl

theorem walkF_append (pid : String) (xs ys : List RawCommentNode)
    (par : Option String) :
    walkF pid (xs ++ ys) par = walkF pid xs par ++ walkF pid ys par := by
  induction xs with
  | nil => rfl
  | cons x xs ih => simp [walkF, ih]

theorem walkF_mem_decomp (pid : String) {c : RawCommentNode}
    {cs : List RawCommentNode} (h : c ∈ cs) (par : Option String) :
    ∃ P S, walkF pid cs par = P ++ walk pid c par ++ S := by
  induction cs with
  | nil => cases h
  | cons x xs ih =>
    rcases List.mem_cons.mp h with rfl | h'
    · exact ⟨[], walkF pid xs par, by simp [walkF]⟩
    · obtain ⟨P, S, hPS⟩ := ih h'
      exact ⟨walk pid x par ++ P, S, by simp [walkF, hPS]⟩

theorem walk_inTree_decomp (pid : String) {a t : RawCommentNode}
    (h : InTree a t) :
    ∀ par : Option String,
      ∃ P par' S, walk pid t par = P ++ walk pid a par' ++ S := by
  induction h with
  | refl => exact fun par => ⟨[], par, [], by simp⟩
  | @child c t hc _ ih =>
    intro par
    obtain ⟨P1, S1, h1⟩ := walkF_mem_decomp pid hc (some t.comment_id)
    obtain ⟨P2, par', S2, h2⟩ := ih (some t.comment_id)
    refine ⟨⟨t.comment_id, pid, par, t.body, t.created_utc⟩ :: P1 ++ P2, par',
      S2 ++ S1, ?_⟩
    rw [walk_eq, h1, h2]
    simp

theorem walkF_inForest_decomp (pid : String) {a : RawCommentNode}
    {f : List RawCommentNode} (h : InForest a f) (par : Option String) :
    ∃ P par' S, walkF pid f par = P ++ walk pid a par' ++ S := by
  obtain ⟨t, ht, hin⟩ := h
  obtain ⟨P0, S0, h0⟩ := walkF_mem_decomp pid ht par
  obtain ⟨P1, par', S1, h1⟩ := walk_inTree_decomp pid hin par
  exact ⟨P0 ++ P1, par', S1 ++ S0, by rw [h0, h1]; simp⟩

mutual

theorem walk_length (pid : String) :
    ∀ (t : RawCommentNode) (par : Option String),
      (walk pid t par).length = treeSize t
  | .mk i b ti rs, par => by
    simp [walk, treeSize, walkF_length pid rs (some i), Nat.add_comm]

theorem walkF_length (pid : String) :
    ∀ (cs : List RawCommentNode) (par : Option String),
      (walkF pid cs par).length = forestSize cs
  | [], _ => rfl
  | c :: rest, par => by
    simp [walkF, forestSize, walk_length pid c par, walkF_length pid rest par]

end

mutual

theorem walk_ids (pid : String) :
    ∀ (t : RawCommentNode) (par : Option String),
      (walk pid t par).map FlatComment.comment_id = treeIds t
  | .mk i b ti rs, par => by
    simp [walk, treeIds, walkF_ids pid rs (some i)]

theorem walkF_ids (pid : String) :
    ∀ (cs : List RawCommentNode) (par : Option String),
      (walkF pid cs par).map FlatComment.comment_id = forestIds cs
  | [], _ => rfl
  | c :: rest, par => by
    simp [walkF, forestIds, walk_ids pid c par, walkF_ids pid rest par]

end

/-- Claim C4: flattening a comment forest with K nodes emits exactly K
flat records whose id multiset is the forest's id multiset, in
pre-order: every ancestor's record appears before each of its
descendants' records, and sibling order is preserved. -/
theorem c4_flatten_complete_preorder (pid : String) (f : List RawCommentNode) :
    (fetch_comments pid f).length = forestSize f ∧
    (((fetch_comments pid f).map FlatComment.comment_id : List String) :
        Multiset String) = (forestIds f : Multiset String) ∧
    (∀ a b, InForest a f → Desc a b →
      ∃ l1 l2 l3 r1 r2,
        fetch_comments pid f = l1 ++ r1 :: (l2 ++ r2 :: l3) ∧
        FlatComment.comment_id r1 = a.comment_id ∧
        FlatComment.comment_id r2 = b.comment_id) ∧
    (∀ x y, SiblingPair x y f →
      ∃ l1 l2 l3 r1 r2,
        fetch_comments pid f = l1 ++ r1 :: (l2 ++ r2 :: l3) ∧
        FlatComment.comment_id r1 = x.comment_id ∧
        FlatComment.comment_id r2 = y.comment_id) := by
  refine ⟨walkF_length pid f none,
    by rw [fetch_comments, walkF_ids pid f none], ?_, ?_⟩
  · intro a b ha hb
    obtain ⟨P, par', S, hPS⟩ := walkF_inForest_decomp pid ha none
    obtain ⟨c, hc, hbc⟩ := hb
    obtain ⟨P1, S1, h1⟩ := walkF_mem_decomp pid hc (some a.comment_id)
    obtain ⟨P2, par2, S2, h2⟩ := walk_inTree_decomp pid hbc (some a.comment_id)
    refine ⟨P, P1 ++ P2,
      walkF pid b.replies (some b.comment_id) ++ S2 ++ S1 ++ S,
      ⟨a.comment_id, pid, par', a.body, a.created_utc⟩,
      ⟨b.comment_id, pid, par2, b.body, b.created_utc⟩, ?_, rfl, rfl⟩
    rw [fetch_comments, hPS, walk_eq pid a, h1, h2, walk_eq pid b]
    simp
  · intro x y hxy
    rcases hxy with ⟨u, v, w, rfl⟩ | ⟨p, hp, u, v, w, hrep⟩
    · refine ⟨walkF pid u none,
        walkF pid x.replies (some x.comment_id) ++ walkF pid v none,
        walkF pid y.replies (some y.comment_id) ++ walkF pid w none,
        ⟨x.comment_id, pid, none, x.body, x.created_utc⟩,
        ⟨y.comment_id, pid, none, y.body, y.created_utc⟩, ?_, rfl, rfl⟩
      rw [fetch_comments]
      simp only [walkF_append, walkF_cons, walkF_nil, walk_eq,
        List.append_assoc, List.cons_append, List.nil_append, List.append_nil]
    · obtain ⟨P, par', S, hPS⟩ := walkF_inForest_decomp pid hp none
      refine ⟨P ++ ⟨p.comment_id, pid, par', p.body, p.created_utc⟩ ::
          walkF pid u (some p.comment_id),
        walkF pid x.replies (some x.comment_id) ++ walkF pid v (some p.comment_id),
        walkF pid y.replies (some y.comment_id) ++ walkF pid w (some p.comment_id) ++ S,
        ⟨x.comment_id, pid, some p.comment_id, x.body, x.created_utc⟩,
        ⟨y.comment_id, pid, some p.comment_id, y.body, y.created_utc⟩, ?_, rfl, rfl⟩
      rw [fetch_comments, hPS, walk_eq pid p, hrep]
      simp only [walkF_append, walkF_cons, walkF_nil, walk_eq,
        List.append_assoc, List.cons_append, List.nil_append, List.append_nil]

/-- Witness for C4 at a two-node forest: the root's record precedes its
nested reply's record. -/
theorem c4_flatten_complete_preorder_witness :
    ∃ l1 l2 l3 r1 r2,
      fetch_comments "p1" [.mk "c1" (some "hi") 3 [.mk "c2" (some "hey") 4 []]] =
        l1 ++ r1 :: (l2 ++ r2 :: l3) ∧
      FlatComment.comment_id r1 =
        (RawCommentNode.mk "c1" (some "hi") 3 [.mk "c2" (some "hey") 4 []]).comment_id ∧
      FlatComment.comment_id r2 = (RawCommentNode.mk "c2" (some "hey") 4 []).comment_id :=
  (c4_flatten_complete_preorder "p1" _).2.2.1 _ _
    ⟨_, by simp, InTree.refl _⟩
    ⟨RawCommentNode.mk "c2" (some "hey") 4 [], by simp [RawCommentNode.replies],
      InTree.refl _⟩

/-- Claim C3 counterexample: the flattener records `parent_id = None` for
a root of the forest, not the owning post's id. -/
theorem c3_counterexample :
    fetch_comments "p1" [.mk "c1" (some "hi") 0 []] =
      [⟨"c1", "p1", none, some "hi", 0⟩] ∧
    (⟨"c1", "p1", none, some "hi", 0⟩ : FlatComment).parent_id ≠ some "p1" := by
  decide

/-- Claim C3 as amended: the flattener records `parent_id` as the
structural parent's `comment_id` for a nested node, and as `None` (absent)
for a root of the forest — not as the owning post's `post_id`. -/
theorem c3_parent_linkage (pid : String) (f : List RawCommentNode) :
    (∀ p, InForest p f → ∀ c ∈ p.replies,
      ∃ l1 l2 r, fetch_comments pid f = l1 ++ r :: l2 ∧
        FlatComment.comment_id r = c.comment_id ∧
        FlatComment.parent_id r = some p.comment_id) ∧
    (∀ t ∈ f,
      ∃ l1 l2 r, fetch_comments pid f = l1 ++ r :: l2 ∧
        FlatComment.comment_id r = t.comment_id ∧
        FlatComment.parent_id r = none) := by
  constructor
  · intro p hp c hc
    obtain ⟨P, par', S, hPS⟩ := walkF_inForest_decomp pid hp none
    obtain ⟨P1, S1, h1⟩ := walkF_mem_decomp pid hc (some p.comment_id)
    refine ⟨P ++ ⟨p.comment_id, pid, par', p.body, p.created_utc⟩ :: P1,
      walkF pid c.replies (some c.comment_id) ++ S1 ++ S,
      ⟨c.comment_id, pid, some p.comment_id, c.body, c.created_utc⟩, ?_, rfl, rfl⟩
    rw [fetch_comments, hPS, walk_eq pid p, h1, walk_eq pid c]
    simp
  · intro t ht
    obtain ⟨P, S, hPS⟩ := walkF_mem_decomp pid ht none
    refine ⟨P, walkF pid t.replies (some t.comment_id) ++ S,
      ⟨t.comment_id, pid, none, t.body, t.created_utc⟩, ?_, rfl, rfl⟩
    rw [fetch_comments, hPS, walk_eq pid t]
    simp

/-- Witness for C3's amended theorem on a two-node forest: the nested
reply carries its parent's comment id and the root carries `None`. -/
theorem c3_parent_linkage_witness :
    (∃ l1 l2 r,
      fetch_comments "p1" [.mk "c1" (some "hi") 3 [.mk "c2" (some "hey") 4 []]] =
        l1 ++ r :: l2 ∧
      FlatComment.comment_id r = (RawCommentNode.mk "c2" (some "hey") 4 []).comment_id ∧
      FlatComment.parent_id r =
        some (RawCommentNode.mk "c1" (some "hi") 3 [.mk "c2" (some "hey") 4 []]).comment_id) ∧
    (∃ l1 l2 r,
      fetch_comments "p1" [.mk "c1" (some "hi") 3 [.mk "c2" (some "hey") 4 []]] =
        l1 ++ r :: l2 ∧
      FlatComment.comment_id r =
        (RawCommentNode.mk "c1" (some "hi") 3 [.mk "c2" (some "hey") 4 []]).comment_id ∧
      FlatComment.parent_id r = none) :=
  ⟨(c3_parent_linkage "p1" _).1 _ ⟨_, by simp, InTree.refl _⟩
      (RawCommentNode.mk "c2" (some "hey") 4 []) (by simp [RawCommentNode.replies]),
    (c3_parent_linkage "p1" _).2 _ (by simp)⟩

/-! ## Structure of the merged comment table -/

theorem clean_data_cons (entity : String) (p : PostRec) (ps : List PostRec)
    (comments : List FlatComment) :
    clean_data entity (p :: ps) comments =
      if comments.isEmpty then Except.ok ((p :: ps).map (postFmt entity))
      else Except.ok ((p :: ps).map (postFmt entity) ++
        (rows2Of (p :: ps) comments).map (commentFmt entity)) := rfl

theorem clean_data_ok (entity : String) (posts : List PostRec)
    (comments : List FlatComment) (hp : posts ≠ []) :
    ∃ rows, clean_data entity posts comments = Except.ok rows := by
  cases posts with
  | nil => exact absurd rfl hp
  | cons p ps =>
    rw [clean_data_cons]
    by_cases hc : comments.isEmpty <;> simp [hc]

theorem mem_merge1 {posts : List PostRec} {cs : List (FlatComment × String)}
    {r : Row1} (h : r ∈ merge1 posts cs) :
    (r.c, r.ttype) ∈ cs ∧
    (r.self_text = none ∨
      ∃ q ∈ posts, (q.post_id == r.c.post_id) = true ∧
        r.self_text = q.self_text) := by
  rw [merge1, List.mem_flatMap] at h
  obtain ⟨p, hp, hr⟩ := h
  rcases hfil : posts.filter (fun q => q.post_id == p.1.post_id) with _ | ⟨q0, qs0⟩
  · rw [hfil] at hr
    simp only [List.mem_singleton] at hr
    subst hr
    exact ⟨hp, Or.inl rfl⟩
  · rw [hfil] at hr
    simp only [List.mem_map] at hr
    obtain ⟨q, hq, rfl⟩ := hr
    have hq' : q ∈ posts.filter (fun q => q.post_id == p.1.post_id) := by
      rw [hfil]; exact hq
    have hmem := List.mem_filter.mp hq'
    exact ⟨hp, Or.inr ⟨q, hmem.1, hmem.2, rfl⟩⟩

theorem mem_merge2 {rows : List Row1} {r2 : Row2} (h : r2 ∈ merge2 rows) :
    r2.r ∈ rows ∧
    (r2.body_parent = none ∨
      ∃ q ∈ rows, (q.c.comment_id == pidStr r2.r.c) = true ∧
        r2.body_parent = q.c.body) := by
  rw [merge2, List.mem_flatMap] at h
  obtain ⟨r, hr, h2⟩ := h
  rcases hfil : rows.filter (fun q => q.c.comment_id == pidStr r.c) with _ | ⟨q0, qs0⟩
  · rw [hfil] at h2
    simp only [List.mem_singleton] at h2
    subst h2
    exact ⟨hr, Or.inl rfl⟩
  · rw [hfil] at h2
    simp only [List.mem_map] at h2
    obtain ⟨q, hq, rfl⟩ := h2
    have hq' : q ∈ rows.filter (fun q => q.c.comment_id == pidStr r.c) := by
      rw [hfil]; exact hq
    have hmem := List.mem_filter.mp hq'
    exact ⟨hr, Or.inr ⟨q, hmem.1, hmem.2, rfl⟩⟩

theorem mem_rows2Of {posts : List PostRec} {comments : List FlatComment}
    {r : Row2} (h : r ∈ rows2Of posts comments) :
    r.r.c ∈ comments ∧
    r.r.ttype = classify (posts.map PostRec.post_id)
      (comments.map FlatComment.comment_id) r.r.c ∧
    (r.r.self_text = none ∨
      ∃ q ∈ posts, (q.post_id == r.r.c.post_id) = true ∧
        r.r.self_text = q.self_text) := by
  rw [rows2Of] at h
  have h2 := mem_merge2 h
  have h1 := mem_merge1 h2.1
  obtain ⟨c, hc, heq⟩ := List.mem_map.mp h1.1
  have e1 : c = r.r.c := congrArg Prod.fst heq
  have e2 : classify (posts.map PostRec.post_id)
      (comments.map FlatComment.comment_id) c = r.r.ttype :=
    congrArg Prod.snd heq
  subst e1
  exact ⟨hc, e2.symm, h1.2⟩

theorem classify_eq_or (pids cids : List String) (c : FlatComment) :
    classify pids cids c = "COMMENT" ∨ classify pids cids c = "REPLY" := by
  rw [classify]
  split
  · exact Or.inl rfl
  split
  · exact Or.inr rfl
  · exact Or.inl rfl

/-- Claim C10: with a non-empty selected-post set and no comments,
`clean_data` raises nothing and returns exactly the formatted POST rows,
one per selected post, with no comment rows. -/
theorem c10_posts_only (entity : String) (posts : List PostRec)
    (hp : posts ≠ []) :
    clean_data entity posts [] = Except.ok (posts.map (postFmt entity)) := by
  cases posts with
  | nil => exact absurd rfl hp
  | cons p ps => rfl

/-- Witness for C10 on one concrete post. -/
theorem c10_posts_only_witness :
    clean_data "sub" [⟨"p1", some "hello", 0, 7⟩] [] =
      Except.ok [⟨"Reddit", "sub", "01-01-1970", "POST", "p1",
        some "hello", some "hello"⟩] := by
  rw [c10_posts_only "sub" [⟨"p1", some "hello", 0, 7⟩] (by decide)]
  rfl

/-- Claim C9: the cleaning-and-formatting stage is a deterministic
function of its inputs — equal fetched inputs give identical tables. -/
theorem c9_deterministic (entity : String) (postsA postsB : List PostRec)
    (commentsA commentsB : List FlatComment)
    (hp : postsA = postsB) (hc : commentsA = commentsB) :
    clean_data entity postsA commentsA = clean_data entity postsB commentsB := by
  rw [hp, hc]

/-- Witness for C9 on a concrete input pair. -/
theorem c9_deterministic_witness :
    clean_data "sub" [⟨"p1", some "hello", 0, 7⟩]
        [⟨"c1", "p1", none, some "hi", 0⟩] =
      clean_data "sub" [⟨"p1", some "hello", 0, 7⟩]
        [⟨"c1", "p1", none, some "hi", 0⟩] :=
  c9_deterministic "sub" _ _ _ _ rfl rfl

/-- Claim C2 counterexample: a root comment's `parent_id` is `None`,
absent from both lookup sets, yet its role is `COMMENT` — so
`role == COMMENT` does not imply membership in the selected-post id set. -/
theorem c2_counterexample :
    clean_data "sub" [⟨"p1", some "hello", 0, 1⟩]
        [⟨"c1", "p1", none, some "hi", 0⟩] =
      Except.ok
        [⟨"Reddit", "sub", "01-01-1970", "POST", "p1", some "hello", some "hello"⟩,
         ⟨"Reddit", "sub", "01-01-1970", "COMMENT", "c1", some "hi", some "hello"⟩] ∧
    pidStr ⟨"c1", "p1", none, some "hi", 0⟩ ∉
      ([⟨"p1", some "hello", 0, 1⟩] : List PostRec).map PostRec.post_id :=
  ⟨rfl, by decide⟩

/-- Claim C2 as amended: a flattened comment's role is `REPLY` iff its
`parent_id` is in the batch comment-id set and not in the selected-post
id set; in every other case — a known post id or the fallback for an
unresolvable parent — the role is `COMMENT`. -/
theorem c2_role_membership (posts : List PostRec) (comments : List FlatComment) :
    (∀ r ∈ rows2Of posts comments,
      r.r.ttype = classify (posts.map PostRec.post_id)
        (comments.map FlatComment.comment_id) r.r.c) ∧
    (∀ (pids cids : List String) (c : FlatComment),
      (classify pids cids c = "REPLY" ↔
        pids.contains (pidStr c) = false ∧ cids.contains (pidStr c) = true) ∧
      (classify pids cids c = "COMMENT" ↔
        (pids.contains (pidStr c) = true ∨ cids.contains (pidStr c) = false))) := by
  constructor
  · intro r hr
    exact (mem_rows2Of hr).2.1
  · intro pids cids c
    simp only [classify]
    cases h1 : pids.contains (pidStr c) <;>
      cases h2 : cids.contains (pidStr c) <;> simp

/-- Witness for C2's amended theorem: a comment whose parent is a known
comment id and not a post id is classified `REPLY`. -/
theorem c2_role_membership_witness :
    classify ["p1"] ["c1"] ⟨"c2", "p1", some "c1", some "x", 0⟩ = "REPLY" :=
  ((c2_role_membership [] []).2 ["p1"] ["c1"]
    ⟨"c2", "p1", some "c1", some "x", 0⟩).1.mpr (by decide)

/-- Claim C1 counterexample: an orphan comment (parent id in neither
lookup) resolves with no error, but its `parent_description` is the
owning post's body `"hello"`, not the empty string. -/
theorem c1_counterexample :
    clean_data "sub" [⟨"p1", some "hello", 0, 10⟩]
        [⟨"c3", "p1", some "zz", some "hi", 0⟩] =
      Except.ok
        [⟨"Reddit", "sub", "01-01-1970", "POST", "p1", some "hello", some "hello"⟩,
         ⟨"Reddit", "sub", "01-01-1970", "COMMENT", "c3", some "hi", some "hello"⟩] ∧
    pidStr ⟨"c3", "p1", some "zz", some "hi", 0⟩ ∉
      ([⟨"p1", some "hello", 0, 10⟩] : List PostRec).map PostRec.post_id ∧
    pidStr ⟨"c3", "p1", some "zz", some "hi", 0⟩ ∉
      ([⟨"c3", "p1", some "zz", some "hi", 0⟩] : List FlatComment).map
        FlatComment.comment_id ∧
    (some "hello" : Option String) ≠ some "" :=
  ⟨rfl, by decide, by decide, by decide⟩

/-- Claim C1 as amended: for an orphan comment, context resolution never
raises — it is classified `COMMENT` by fallback — but its
`parent_description` is the post-context join value (the owning post's
body, or a null cell when no selected post matches its `post_id`), not
the empty string. -/
theorem c1_orphan_context (entity : String) (posts : List PostRec)
    (comments : List FlatComment) (hp : posts ≠ []) :
    (∃ rows, clean_data entity posts comments = Except.ok rows) ∧
    (∀ c ∈ comments,
      (posts.map PostRec.post_id).contains (pidStr c) = false →
      (comments.map FlatComment.comment_id).contains (pidStr c) = false →
      classify (posts.map PostRec.post_id)
        (comments.map FlatComment.comment_id) c = "COMMENT") ∧
    (∀ r ∈ rows2Of posts comments, r.r.ttype = "COMMENT" →
      (commentFmt entity r).parent_description = r.r.self_text ∧
      (r.r.self_text = none ∨
        ∃ q ∈ posts, (q.post_id == r.r.c.post_id) = true ∧
          r.r.self_text = q.self_text)) := by
  refine ⟨clean_data_ok entity posts comments hp, ?_, ?_⟩
  · intro c _ h1 h2
    unfold classify
    rw [h1, h2]
    simp
  · intro r hr ht
    refine ⟨?_, (mem_rows2Of hr).2.2⟩
    simp [commentFmt, context, ht]

/-- Witness for C1's amended theorem: the concrete orphan of the
counterexample is classified `COMMENT` by the fallback branch. -/
theorem c1_orphan_context_witness :
    classify (([⟨"p1", some "hello", 0, 10⟩] : List PostRec).map PostRec.post_id)
      (([⟨"c3", "p1", some "zz", some "hi", 0⟩] : List FlatComment).map
        FlatComment.comment_id)
      ⟨"c3", "p1", some "zz", some "hi", 0⟩ = "COMMENT" :=
  (c1_orphan_context "sub" [⟨"p1", some "hello", 0, 10⟩]
    [⟨"c3", "p1", some "zz", some "hi", 0⟩] (by decide)).2.1
    ⟨"c3", "p1", some "zz", some "hi", 0⟩ (by decide) (by decide) (by decide)

/-- Claim C8 counterexample: a comment row whose `body` cell is missing
is emitted with a null `DESCRIPTION`, not the empty string — only the
POST rows pass through `fillna("")`. -/
theorem c8_counterexample :
    clean_data "sub" [⟨"p1", some "hello", 0, 10⟩]
        [⟨"c1", "p1", some "p1", none, 0⟩] =
      Except.ok
        [⟨"Reddit", "sub", "01-01-1970", "POST", "p1", some "hello", some "hello"⟩,
         ⟨"Reddit", "sub", "01-01-1970", "COMMENT", "c1", none, some "hello"⟩] ∧
    (none : Option String).isSome = false :=
  ⟨rfl, rfl⟩

/-- Claim C8 as amended: every POST row carries present strings in both
text cells (missing post body normalized to `""`), while every comment
row is the unnormalized projection of its own merged source row: its
`DESCRIPTION` is that row's raw `body` cell and its
`PARENT_DESCRIPTION` is that row's raw resolved context, so a missing
comment body or unresolved context remains a null cell. -/
theorem c8_description_cells (entity : String) (posts : List PostRec)
    (comments : List FlatComment) (rows : List OutRow)
    (h : clean_data entity posts comments = Except.ok rows) :
    (∀ row ∈ rows, OutRow.ttype row = "POST" →
      (OutRow.description row).isSome ∧ (OutRow.parent_description row).isSome) ∧
    (∀ row ∈ rows, OutRow.ttype row ≠ "POST" →
      ∃ r ∈ rows2Of posts comments,
        row = commentFmt entity r ∧
        OutRow.description row = r.r.c.body ∧
        OutRow.parent_description row = context r ∧
        OutRow.id row = r.r.c.comment_id ∧
        r.r.c ∈ comments) := by
  cases posts with
  | nil => simp [clean_data] at h
  | cons p ps =>
    rw [clean_data_cons] at h
    by_cases hc : comments.isEmpty
    · rw [if_pos hc] at h
      obtain rfl : (p :: ps).map (postFmt entity) = rows := by
        injection h
      constructor
      · intro row hrow _
        obtain ⟨q, _, rfl⟩ := List.mem_map.mp hrow
        exact ⟨rfl, rfl⟩
      · intro row hrow hne
        obtain ⟨q, _, rfl⟩ := List.mem_map.mp hrow
        exact absurd rfl hne
    · rw [if_neg hc] at h
      obtain rfl : (p :: ps).map (postFmt entity) ++
          (rows2Of (p :: ps) comments).map (commentFmt entity) = rows := by
        injection h
      constructor
      · intro row hrow hpost
        rcases List.mem_append.mp hrow with hl | hr
        · obtain ⟨q, _, rfl⟩ := List.mem_map.mp hl
          exact ⟨rfl, rfl⟩
        · obtain ⟨r, hr2, rfl⟩ := List.mem_map.mp hr
          have hty := (mem_rows2Of hr2).2.1
          have : OutRow.ttype (commentFmt entity r) = r.r.ttype := rfl
          rcases classify_eq_or ((p :: ps).map PostRec.post_id)
              (comments.map FlatComment.comment_id) r.r.c with hcl | hcl <;>
            rw [this, hty, hcl] at hpost <;> exact absurd hpost (by decide)
      · intro row hrow hne
        rcases List.mem_append.mp hrow with hl | hr
        · obtain ⟨q, _, rfl⟩ := List.mem_map.mp hl
          exact absurd rfl hne
        · obtain ⟨r, hr2, rfl⟩ := List.mem_map.mp hr
          exact ⟨r, hr2, rfl, rfl, rfl, rfl, (mem_rows2Of hr2).1⟩

/-- Witness for C8's amended theorem on a concrete table. -/
theorem c8_description_cells_witness :
    (∀ row ∈ ([⟨"Reddit", "sub", "01-01-1970", "POST", "p1",
          some "hello", some "hello"⟩,
        ⟨"Reddit", "sub", "01-01-1970", "COMMENT", "c1",
          some "hi", some "hello"⟩] : List OutRow),
      OutRow.ttype row = "POST" →
        (OutRow.description row).isSome ∧ (OutRow.parent_description row).isSome) ∧
    (∀ row ∈ ([⟨"Reddit", "sub", "01-01-1970", "POST", "p1",
          some "hello", some "hello"⟩,
        ⟨"Reddit", "sub", "01-01-1970", "COMMENT", "c1",
          some "hi", some "hello"⟩] : List OutRow),
      OutRow.ttype row ≠ "POST" →
        ∃ r ∈ rows2Of [⟨"p1", some "hello", 0, 10⟩]
            [⟨"c1", "p1", some "p1", some "hi", 0⟩],
          row = commentFmt "sub" r ∧
          OutRow.description row = r.r.c.body ∧
          OutRow.parent_description row = context r ∧
          OutRow.id row = r.r.c.comment_id ∧
          r.r.c ∈ ([⟨"c1", "p1", some "p1", some "hi", 0⟩] : List FlatComment)) :=
  c8_description_cells "sub" [⟨"p1", some "hello", 0, 10⟩]
    [⟨"c1", "p1", some "p1", some "hi", 0⟩] _ rfl

/-! ## Post selection -/

theorem fetch_data_fst (cfg : Config) (subs : List Submission) :
    (fetch_data cfg subs).1 =
      (((subs.filter fun s => inWindow cfg s.created_utc).map fun s =>
          (⟨s.id, s.selftext, s.created_utc, s.score⟩ : PostRec)).mergeSort
        scoreGe).take cfg.top_post_number := by
  simp only [fetch_data]
  split
  · rename_i h
    rw [List.isEmpty_iff] at h
    rw [h]
    simp
  · rfl

theorem scoreGe_trans : ∀ a b c : PostRec, scoreGe a b → scoreGe b c → scoreGe a c := by
  intro a b c h1 h2
  simp only [scoreGe, decide_eq_true_eq] at h1 h2 ⊢
  omega

theorem scoreGe_total : ∀ a b : PostRec, scoreGe a b || scoreGe b a := by
  intro a b
  simp only [scoreGe, Bool.or_eq_true, decide_eq_true_eq]
  omega

theorem take_mergeSort_spec (posts : List PostRec) (n : Nat) :
    ((posts.mergeSort scoreGe).take n).length ≤ n ∧
    ((posts.mergeSort scoreGe).take n).Pairwise (fun a b => b.score ≤ a.score) ∧
    (∀ q ∈ posts, q ∉ (posts.mergeSort scoreGe).take n →
      ∀ p ∈ (posts.mergeSort scoreGe).take n, q.score ≤ p.score) ∧
    (∀ sc : Int,
      List.Sublist (((posts.mergeSort scoreGe).take n).filter
        (fun p => p.score == sc)) (posts.filter (fun p => p.score == sc))) := by
  have hpair := List.sorted_mergeSort (fun a b c => scoreGe_trans a b c)
    (fun a b => scoreGe_total a b) posts
  refine ⟨?_, ?_, ?_, ?_⟩
  · simp only [List.length_take]
    omega
  · exact (List.Pairwise.sublist (List.take_sublist _ _) hpair).imp
      (fun h => by simpa [scoreGe] using h)
  · intro q hq hnot p hp
    have hqL : q ∈ posts.mergeSort scoreGe := List.mem_mergeSort.mpr hq
    have hsplitmem : q ∈ (posts.mergeSort scoreGe).take n ++
        (posts.mergeSort scoreGe).drop n := by
      rw [List.take_append_drop]
      exact hqL
    have hqdrop : q ∈ (posts.mergeSort scoreGe).drop n := by
      rcases List.mem_append.mp hsplitmem with h | h
      · exact absurd h hnot
      · exact h
    have hsplit : List.Pairwise (fun a b => scoreGe a b = true)
        ((posts.mergeSort scoreGe).take n ++
          (posts.mergeSort scoreGe).drop n) := by
      rw [List.take_append_drop]
      exact hpair
    have := (List.pairwise_append.mp hsplit).2.2 p hp q hqdrop
    simpa [scoreGe] using this
  · intro sc
    have hall : ∀ a ∈ posts.filter (fun p => p.score == sc),
        ∀ b ∈ posts.filter (fun p => p.score == sc), scoreGe a b := by
      intro a ha b hb
      have h1 := (List.mem_filter.mp ha).2
      have h2 := (List.mem_filter.mp hb).2
      simp only [beq_iff_eq] at h1 h2
      simp [scoreGe, h1, h2]
    have hA : (posts.filter (fun p => p.score == sc)).Pairwise
        (fun a b => scoreGe a b = true) :=
      List.pairwise_of_forall_mem_list hall
    have h1 : List.Sublist (posts.filter (fun p => p.score == sc))
        (posts.mergeSort scoreGe) :=
      List.sublist_mergeSort (fun a b c => scoreGe_trans a b c)
        (fun a b => scoreGe_total a b) hA (List.filter_sublist posts)
    have h2 : List.Perm ((posts.mergeSort scoreGe).filter (fun p => p.score == sc))
        (posts.filter (fun p => p.score == sc)) :=
      (List.mergeSort_perm posts scoreGe).filter _
    have h3 : List.Sublist (posts.filter (fun p => p.score == sc))
        ((posts.mergeSort scoreGe).filter (fun p => p.score == sc)) := by
      have h4 := h1.filter (fun p => p.score == sc)
      rwa [List.filter_eq_self.mpr (fun a ha => (List.mem_filter.mp ha).2)] at h4
    have hEq : (posts.mergeSort scoreGe).filter (fun p => p.score == sc) =
        posts.filter (fun p => p.score == sc) :=
      (h3.eq_of_length h2.length_eq.symm).symm
    exact hEq ▸ ((List.take_sublist n (posts.mergeSort scoreGe)).filter
      (fun p => p.score == sc))

/-- Claim C5 counterexample: with start = end = 2020-01-01, a post
created at 2020-01-01 12:00:00 UTC (timestamp 1577880000) lies on the
end date — inside the closed day-granularity window — yet the code's
instant-based test `start <= created <= end` compares against the end
date's midnight, excludes it, and `fetch_data` returns empty frames. -/
theorem c5_counterexample :
    inWindowDaySpec ⟨"sub", 2020, 1, 1, 2020, 1, 1, 5⟩ 1577880000 = true ∧
    inWindow ⟨"sub", 2020, 1, 1, 2020, 1, 1, 5⟩ 1577880000 = false ∧
    fetch_data ⟨"sub", 2020, 1, 1, 2020, 1, 1, 5⟩
        [⟨"p1", some "x", 1577880000, 3, []⟩] = ([], []) :=
  ⟨by decide, by decide, rfl⟩

/-- Claim C5 as amended: the window test keeps a post iff its timestamp
lies between the two configured dates' *midnights*, both endpoints
inclusive as instants — so every selected post satisfies those bounds,
but a post created strictly after 00:00:00 UTC on the end date is
outside the window. -/
theorem c5_window_bounds (cfg : Config) (subs : List Submission) :
    (∀ p ∈ (fetch_data cfg subs).1,
      startEpoch cfg ≤ p.created_utc ∧ p.created_utc ≤ endEpoch cfg) ∧
    (∀ s ∈ subs, inWindow cfg s.created_utc = true ↔
      startEpoch cfg ≤ s.created_utc ∧ s.created_utc ≤ endEpoch cfg) := by
  constructor
  · intro p hp
    rw [fetch_data_fst] at hp
    have h1 := List.mem_mergeSort.mp (List.mem_of_mem_take hp)
    obtain ⟨s, hs, rfl⟩ := List.mem_map.mp h1
    have h3 := (List.mem_filter.mp hs).2
    simpa [inWindow] using h3
  · intro s _
    simp [inWindow]

/-- Witness for C5's amended theorem at noon on the day before the end
date of a two-day window. -/
theorem c5_window_bounds_witness :
    inWindow ⟨"sub", 2020, 1, 1, 2020, 1, 2, 5⟩ 1577880000 = true ↔
      startEpoch ⟨"sub", 2020, 1, 1, 2020, 1, 2, 5⟩ ≤ 1577880000 ∧
        1577880000 ≤ endEpoch ⟨"sub", 2020, 1, 1, 2020, 1, 2, 5⟩ :=
  (c5_window_bounds ⟨"sub", 2020, 1, 1, 2020, 1, 2, 5⟩
      [⟨"p1", some "x", 1577880000, 3, []⟩]).2
    ⟨"p1", some "x", 1577880000, 3, []⟩ (by simp)

/-- Claim C6: the selected set holds at most `top_post_number` posts in
descending score order, every in-window post left out scores no more
than any selected post, and posts with equal scores keep their original
fetch order (the selection's equal-score subsequence is a subsequence of
the candidates' equal-score subsequence). -/
theorem c6_selection (cfg : Config) (subs : List Submission) :
    (fetch_data cfg subs).1.length ≤ cfg.top_post_number ∧
    (fetch_data cfg subs).1.Pairwise (fun a b => b.score ≤ a.score) ∧
    (∀ q ∈ (subs.filter fun s => inWindow cfg s.created_utc).map (fun s =>
        (⟨s.id, s.selftext, s.created_utc, s.score⟩ : PostRec)),
      q ∉ (fetch_data cfg subs).1 →
      ∀ p ∈ (fetch_data cfg subs).1, q.score ≤ p.score) ∧
    (∀ sc : Int,
      List.Sublist ((fetch_data cfg subs).1.filter (fun p => p.score == sc))
        (((subs.filter fun s => inWindow cfg s.created_utc).map (fun s =>
          (⟨s.id, s.selftext, s.created_utc, s.score⟩ : PostRec))).filter
          (fun p => p.score == sc))) := by
  have h := take_mergeSort_spec
    ((subs.filter fun s => inWindow cfg s.created_utc).map fun s =>
      (⟨s.id, s.selftext, s.created_utc, s.score⟩ : PostRec))
    cfg.top_post_number
  rw [fetch_data_fst]
  exact h

unseal List.mergeSort List.merge in
/-- Witness for C6 with two in-window posts and `top_post_number = 1`:
the lower-scoring post is excluded and scores below the selected one. -/
theorem c6_selection_witness :
    ∀ p ∈ (fetch_data ⟨"sub", 2020, 1, 1, 2020, 1, 2, 1⟩
        [⟨"a", some "x", 1577836800, 3, []⟩,
         ⟨"b", some "y", 1577836900, 5, []⟩]).1,
      (⟨"a", some "x", 1577836800, 3⟩ : PostRec).score ≤ p.score :=
  (c6_selection ⟨"sub", 2020, 1, 1, 2020, 1, 2, 1⟩
      [⟨"a", some "x", 1577836800, 3, []⟩, ⟨"b", some "y", 1577836900, 5, []⟩]).2.2.1
    ⟨"a", some "x", 1577836800, 3⟩ (by decide) (by decide)

/-- Claim C7: when zero fetched posts fall inside the date window, the
run reports the empty-result condition as a fatal error and writes no
output file. -/
theorem c7_empty_window_fatal (cfg : Config) (subs : List Submission)
    (h : subs.filter (fun s => inWindow cfg s.created_utc) = []) :
    main_run cfg subs = Except.error
      "No posts found for the given subreddit and date range. Try widening the date range." := by
  simp [main_run, fetch_data, h]

/-- Witness for C7: a single fetched post created before the window. -/
theorem c7_empty_window_fatal_witness :
    main_run ⟨"sub", 2020, 1, 1, 2020, 1, 2, 5⟩ [⟨"p1", some "x", 0, 3, []⟩] =
      Except.error
        "No posts found for the given subreddit and date range. Try widening the date range." :=
  c7_empty_window_fatal ⟨"sub", 2020, 1, 1, 2020, 1, 2, 5⟩
    [⟨"p1", some "x", 0, 3, []⟩] rfl
